import Mathlib

/-!
Verification development for the mesh topology component of dolfinx
(cpp/dolfinx/mesh/Topology.cpp and Topology.h).

The definitions below are a shallow embedding of the source.  Machine
integers (`std::int64_t`, `std::int32_t`, `int`) are modelled as `Int`
(no arithmetic in the embedded fragments comes near the overflow range),
MPI collectives are modelled by their data-routing semantics, and
fallible code returns `Option`/`Except`.  Line numbers refer to
Topology.cpp unless stated otherwise.
-/

/-! ### compute_index_sharing (Topology.cpp lines 28 to 97) -/

/-- Model of `*std::max_element(v.begin(), v.end())` for a
`std::vector<std::int64_t>`: `none` models the undefined behaviour of
dereferencing the end iterator when the vector is empty; otherwise the
maximum value.  The C++ algorithm keeps the current element unless it is
strictly smaller than the candidate, which is the fold below. -/
def maxElement : List Int → Option Int
  | [] => none
  | x :: xs => some (xs.foldl (fun a b => if a < b then b else a) x)

/-- Lines 33 to 34 of `compute_index_sharing`: the first data-dependent
step dereferences the maximum element of `unknown_indices`
unconditionally; `none` means the behaviour is undefined (empty input). -/
def compute_index_sharing_max_index (unknown_indices : List Int) : Option Int :=
  maxElement unknown_indices

/-- Lines 31 to 36: each rank computes the maximum of its own
`unknown_indices`, the ranks combine the per-rank maxima with
`MPI_Allreduce(..., MPI_SUM, ...)` (the reduction operation in the source
is `MPI_SUM`), and the result is incremented by one.  `unknown p` is the
`unknown_indices` vector of rank `p`; the result is `none` when any
participating rank has an empty vector (undefined behaviour on that
rank). -/
def global_space (P : Nat) (unknown : Nat → List Int) : Option Int :=
  ((List.range P).mapM fun p => maxElement (unknown p)).map fun ms => ms.sum + 1

/-- The maximum referenced global index across all participating ranks:
the quantity from which the spec claims the estimate of the global index
space is derived. -/
def overallMaxIndex (P : Nat) (unknown : Nat → List Int) : Option Int :=
  maxElement ((List.range P).flatMap unknown)

/-- Lines 38 to 44: rank `r` distributes its `unknown_indices` into
`send_indices[q]` buckets by the deterministic router
`dolfinx::MPI::index_owner` (a pure function of the index, identical on
every rank because `global_space` is the result of an all-reduce); the
router is the abstract argument `f`.  `sendIndicesTo f u q` is the bucket
for destination rank `q`, in push-back order. -/
def sendIndicesTo (f : Int → Nat) (u : List Int) (q : Nat) : List Int :=
  u.filter fun gi => f gi = q

/-- Lines 50 to 57: at the arbitrating rank `q`, the all-to-all delivers
`recv_indices` with node `p` holding what rank `p` sent to `q`; the loop
pushes `p` onto `index_to_owner[gi]` once per occurrence of `gi` in node
`p`, with `p` scanned in increasing order.  `aggregateAt P f unknown q gi`
is the resulting sharing list for `gi` at rank `q`. -/
def aggregateAt (P : Nat) (f : Int → Nat) (unknown : Nat → List Int) (q : Nat)
    (gi : Int) : List Nat :=
  (List.range P).flatMap fun p =>
    ((sendIndicesTo f (unknown p) q).filter fun x => x = gi).map fun _ => p

/-- Lines 59 to 73: the flat reply arbiter `q` sends back to asker `p`:
for each index in what `p` sent to `q` (in order), the length of its
sharing list followed by the list itself. -/
def returnFlat (P : Nat) (f : Int → Nat) (unknown : Nat → List Int) (q p : Nat) :
    List Nat :=
  (sendIndicesTo f (unknown p) q).flatMap fun gi =>
    (aggregateAt P f unknown q gi).length :: aggregateAt P f unknown q gi

/-- Lines 86 to 93, the decoding while-loop at the asker: read a count,
consume that many ranks for the current entry of `send_v`, advance.  The
fall-through cases model the loop stopping when either list is exhausted
(on well-formed replies both run out together). -/
def decodeOwners : List Int → List Nat → List (Int × List Nat)
  | [], _ => []
  | _ :: _, [] => []
  | gi :: sv, cnt :: rest => (gi, rest.take cnt) :: decodeOwners sv (rest.drop cnt)

/-- Lines 80 to 96: the map `index_to_owner` returned by
`compute_index_sharing` at rank `r`, assembled from the replies of every
arbiter `q = 0 .. P-1` in order.  It is represented as an association
list with first-match lookup; at the call site each key occurs at most
once because `unknown_indices` is built from a `std::set` and the router
sends each index to exactly one arbiter. -/
def compute_index_sharing_result (P : Nat) (f : Int → Nat)
    (unknown : Nat → List Int) (r : Nat) : List (Int × List Nat) :=
  (List.range P).flatMap fun q =>
    decodeOwners (sendIndicesTo f (unknown r) q) (returnFlat P f unknown q r)

/-- The ascending list of ranks whose `unknown_indices` contain `gi`: the
claim's "set of source ranks that asked about that index". -/
def askers (P : Nat) (unknown : Nat → List Int) (gi : Int) : List Nat :=
  (List.range P).filter fun p => gi ∈ unknown p

/-! ### Vertex classification in create_topology (lines 501 to 539) -/

/-- Insertion into a `std::set<std::int64_t>`: ordered, duplicates
ignored. -/
def setInsert (x : Int) : List Int → List Int
  | [] => [x]
  | y :: ys => if x < y then x :: y :: ys else if x = y then y :: ys else y :: setInsert x ys

/-- Lines 505 to 514: the key set of `global_to_local_index` after every
vertex of every ghost cell has been inserted with value `-1`
(`unordered_map::insert` keeps the first occurrence; only membership in
the key set matters below).  `cells` is the input adjacency list given as
the per-cell vertex lists, ghost cells trailing; `numLocal` is
`num_local_cells`. -/
def ghost_vertex_keys (cells : List (List Int)) (numLocal : Nat) : List Int :=
  ((cells.drop numLocal).flatMap id).foldl
    (fun m v => if v ∈ m then m else m ++ [v]) []

/-- Lines 516 to 537: the classification loop over the locally owned
cells, producing `unknown_indices` — the ordered contents of the
`std::set ghost_boundary_vertices` of vertices that appear in both a
ghost cell and a locally owned cell. -/
def classify_unknown (cells : List (List Int)) (numLocal : Nat) : List Int :=
  let keys := ghost_vertex_keys cells numLocal
  ((cells.take numLocal).flatMap id).foldl
    (fun s v => if v ∈ keys then setInsert v s else s) []

/-! ### Ghost resolution rounds and the post-hoc check (lines 614 to 686) -/

/-- Update of `it->second` for an existing key of `global_to_local_index`
(the C++ code asserts that the key is present; on a missing key the model
leaves the map unchanged). -/
def mapSet : List (Int × Int) → Int → Int → List (Int × Int)
  | [], _, _ => []
  | (k, v) :: rest, key, val =>
    if k = key then (k, val) :: rest else (k, v) :: mapSet rest key val

/-- Lines 614 to 624, unpacking round one: `recv` is the flat list of
`(global_index, owned_global_index)` pairs; each pair assigns the next
local index `c` to its vertex and records the owner's global index in
`ghost_vertices[c - nlocal]`.  State is `(global_to_local_index, c,
ghost_vertices)`.  An odd trailing element is ignored (the C++ loop would
read past the end). -/
def unpack_round1 : List Int → List (Int × Int) → Int → Int → List Int →
    List (Int × Int) × Int × List Int
  | gi :: val :: rest, g2l, nlocal, c, ghosts =>
    unpack_round1 rest (mapSet g2l gi c) nlocal (c + 1)
      (ghosts.set (c - nlocal).toNat val)
  | _, g2l, _, c, ghosts => (g2l, c, ghosts)

/-- Lines 670 to 680, unpacking round two: same as round one except that a
pair is only applied when the vertex is still unresolved
(`it->second == -1`). -/
def unpack_round2 : List Int → List (Int × Int) → Int → Int → List Int →
    List (Int × Int) × Int × List Int
  | gi :: val :: rest, g2l, nlocal, c, ghosts =>
    match g2l.lookup gi with
    | some v =>
      if v = -1 then
        unpack_round2 rest (mapSet g2l gi c) nlocal (c + 1)
          (ghosts.set (c - nlocal).toNat val)
      else unpack_round2 rest g2l nlocal c ghosts
    | none => unpack_round2 rest g2l nlocal c ghosts
  | _, g2l, _, c, ghosts => (g2l, c, ghosts)

/-- Lines 683 to 686, the post-hoc checks.  The first assert in the
source reads `assert(c = (nghosts + nlocal))`: the expression is an
assignment, so it stores `nghosts + nlocal` into `c` and the assert tests
the assigned value against zero.  The returned triple is (value of `c`
after the assert expression, condition tested by the first assert,
condition tested by the element-wise loop of asserts). -/
def ghost_fill_check (c nlocal nghosts : Int) (ghost_vertices : List Int) :
    Int × Bool × Bool :=
  let cAfter := nghosts + nlocal
  (cAfter, cAfter != 0, ghost_vertices.all fun v => v != -1)

/-- Intended comparison of the first post-hoc assert (what
`assert(c == nghosts + nlocal)` would test). -/
def ghost_count_matches (c nlocal nghosts : Int) : Bool :=
  c == nghosts + nlocal

/-- Concrete post-round-two state for a rank with `nlocal = 1` and two
ghost slots (unresolved vertices `7` and `9`) that received the single
pair `(7, 100)` in round one and nothing in round two. -/
def c3_state : List (Int × Int) × Int × List Int :=
  let s1 := unpack_round1 [7, 100] [(7, -1), (9, -1)] 1 1 [-1, -1]
  unpack_round2 [] s1.1 1 s1.2.1 s1.2.2

/-! ### Cell types (cell_types.h is not part of the reviewed sources) -/

/-- Modelled from the spec: the cell shape, which "fixes vertices-per-cell"
and determines the topological dimension (`mesh::CellType`,
`mesh::cell_dim` and `mesh::num_cell_vertices` live in cell_types.h,
outside the reviewed files). -/
inductive CellType
  | point
  | interval
  | triangle
  | quadrilateral
  | tetrahedron
  | prism
  | pyramid
  | hexahedron
deriving DecidableEq

/-- Modelled from the spec: topological dimension of a cell shape. -/
def cell_dim : CellType → Int
  | .point => 0
  | .interval => 1
  | .triangle => 2
  | .quadrilateral => 2
  | .tetrahedron => 3
  | .prism => 3
  | .pyramid => 3
  | .hexahedron => 3

/-- Modelled from the spec: number of vertices of a cell shape. -/
def num_cell_vertices : CellType → Int
  | .point => 1
  | .interval => 2
  | .triangle => 3
  | .quadrilateral => 4
  | .tetrahedron => 4
  | .prism => 6
  | .pyramid => 5
  | .hexahedron => 8

/-! ### Storage and the Topology object (Topology.h, Topology.cpp) -/

/-- Distribution data of one entity dimension (`common::IndexMap`): only
the sizes are needed by the reviewed code paths. -/
structure IndexMap where
  size_local : Int
  num_ghosts : Int
deriving DecidableEq

/-- A stored adjacency list (`graph::AdjacencyList<std::int32_t>`),
CSR-like offsets plus flat array. -/
structure AdjList where
  offsets : List Int
  arr : List Int
deriving DecidableEq

/-- Modelled from the spec: one `storage::TopologyStorage` view
(TopologyStorage.h is outside the reviewed files).  Per the spec a layer
holds computed index maps, connectivities, the interior-facet marker and
the permutation tables; layers are append-only ("existing keys are never
overwritten"). -/
structure TopologyStorage where
  index_maps : Int → Option IndexMap
  conns : Int → Int → Option AdjList
  interior_facets : Option (List Bool)
  cell_permutations : Option (List Nat)
  facet_permutations : Option (List Nat)

/-- Storage holding nothing. -/
def emptyStorage : TopologyStorage :=
  { index_maps := fun _ => none
    conns := fun _ _ => none
    interior_facets := none
    cell_permutations := none
    facet_permutations := none }

/-- Modelled from the spec: `TopologyStorage::set_index_map`.  Append-only
set: an existing entry is kept; a `some` value fills an absent entry; the
returned option is the entry now present (the create functions use it as
the "already existed" sentinel). -/
def TopologyStorage.set_index_map (s : TopologyStorage) (v : Option IndexMap)
    (d : Int) : TopologyStorage × Option IndexMap :=
  match s.index_maps d with
  | some old => (s, some old)
  | none =>
    match v with
    | none => (s, none)
    | some x =>
      ({ s with index_maps := fun a => if a = d then some x else s.index_maps a },
        some x)

/-- Modelled from the spec: `TopologyStorage::set_connectivity`, same
append-only semantics as `set_index_map`. -/
def TopologyStorage.set_connectivity (s : TopologyStorage) (v : Option AdjList)
    (d0 d1 : Int) : TopologyStorage × Option AdjList :=
  match s.conns d0 d1 with
  | some old => (s, some old)
  | none =>
    match v with
    | none => (s, none)
    | some x =>
      ({ s with conns := fun a b => if a = d0 ∧ b = d1 then some x else s.conns a b },
        some x)

/-- Modelled from the spec: `TopologyStorage::set_cell_permutations`. -/
def TopologyStorage.set_cell_permutations (s : TopologyStorage)
    (v : Option (List Nat)) : TopologyStorage × Option (List Nat) :=
  match s.cell_permutations with
  | some old => (s, some old)
  | none =>
    match v with
    | none => (s, none)
    | some x => ({ s with cell_permutations := some x }, some x)

/-- Modelled from the spec: `TopologyStorage::set_facet_permutations`. -/
def TopologyStorage.set_facet_permutations (s : TopologyStorage)
    (v : Option (List Nat)) : TopologyStorage × Option (List Nat) :=
  match s.facet_permutations with
  | some old => (s, some old)
  | none =>
    match v with
    | none => (s, none)
    | some x => ({ s with facet_permutations := some x }, some x)

/-- Error message of `Topology::check_storage` (Topology.cpp lines
324 to 326). -/
def check_storage_msg : String :=
  "Storage does not provide all required data"

/-- `Topology::check_storage` (Topology.cpp lines 318 to 328): throws
`std::invalid_argument` unless the index maps for dimensions `tdim` and
`0` and the connectivities `(tdim, 0)` and `(0, 0)` are all present. -/
def check_storage (s : TopologyStorage) (tdim : Int) : Except String TopologyStorage :=
  if (s.index_maps tdim).isSome ∧ (s.index_maps 0).isSome
      ∧ (s.conns tdim 0).isSome ∧ (s.conns 0 0).isSome
  then .ok s
  else .error check_storage_msg

/-- The state of a `Topology` object: permanent, remanent and cache
storage (the cache chains to the remanent storage for lookups, as set up
by `cache{false, &remanent_storage}` in the constructor) and the cell
type. -/
structure TopologyState where
  permanent : TopologyStorage
  remanent : TopologyStorage
  cacheLayer : TopologyStorage
  cell_type : CellType

/-- Lookup of a connectivity through the cache chain: the cache layer
first, falling through to the remanent storage. -/
def TopologyState.cache_conn (t : TopologyState) (d0 d1 : Int) : Option AdjList :=
  match t.cacheLayer.conns d0 d1 with
  | some c => some c
  | none => t.remanent.conns d0 d1

/-- Lookup of an index map through the cache chain. -/
def TopologyState.cache_im (t : TopologyState) (d : Int) : Option IndexMap :=
  match t.cacheLayer.index_maps d with
  | some m => some m
  | none => t.remanent.index_maps d

/-- Lookup of the cell permutations through the cache chain. -/
def TopologyState.cache_cell_perms (t : TopologyState) : Option (List Nat) :=
  match t.cacheLayer.cell_permutations with
  | some v => some v
  | none => t.remanent.cell_permutations

/-- Lookup of the facet permutations through the cache chain. -/
def TopologyState.cache_facet_perms (t : TopologyState) : Option (List Nat) :=
  match t.cacheLayer.facet_permutations with
  | some v => some v
  | none => t.remanent.facet_permutations

/-- The Topology constructor (Topology.h lines 84 to 103): validate the
supplied remanent storage with `check_storage`, then copy the essential
entries into the fresh permanent storage.  The copy block is embedded
exactly as written in the source: it sets `connectivity(dim, 0)` twice
(lines 91 to 94 repeat the same statement) and sets the two index maps;
no statement copies `connectivity(0, 0)`. -/
def Topology.construct (ct : CellType) (remanent_storage : TopologyStorage) :
    Except String TopologyState := do
  let rem ← check_storage remanent_storage (cell_dim ct)
  let d := cell_dim ct
  let p1 := (emptyStorage.set_connectivity (rem.conns d 0) d 0).1
  let p2 := (p1.set_connectivity (rem.conns d 0) d 0).1
  let p3 := (p2.set_index_map (rem.index_maps d) d).1
  let p4 := (p3.set_index_map (rem.index_maps 0) 0).1
  return { permanent := p4, remanent := rem, cacheLayer := emptyStorage, cell_type := ct }

/-- Result of the external entity-construction kernel
`TopologyComputation::compute_entities` (external collaborator, spec
section 6): cell-to-entity connectivity, entity-to-vertex connectivity
and the index map of the new dimension. -/
structure EntityKernelResult where
  cell_entity : AdjList
  entity_vertex : AdjList
  imap : IndexMap

/-- `Topology::create_entities` (Topology.cpp lines 330 to 359).  If the
`(dim, 0)` connectivity is already available through the cache chain, the
data (index map, `(tdim, dim)` and `(dim, 0)` connectivities) is copied
into remanent storage and the sentinel `-1` is returned; otherwise the
external kernel `k` runs and its three results are stored in remanent
storage, returning the new index map's local size. -/
def TopologyState.create_entities (t : TopologyState) (dim : Int)
    (k : EntityKernelResult) : TopologyState × Int :=
  let td := cell_dim t.cell_type
  let (rem1, conn) := t.remanent.set_connectivity (t.cache_conn dim 0) dim 0
  match conn with
  | some _ =>
    let rem2 := (rem1.set_index_map (t.cache_im dim) dim).1
    let rem3 := (rem2.set_connectivity (t.cache_conn td dim) td dim).1
    ({ t with remanent := rem3 }, -1)
  | none =>
    let rem2 := (rem1.set_connectivity (some k.cell_entity) td dim).1
    let rem3 := (rem2.set_connectivity (some k.entity_vertex) dim 0).1
    let rem4 := (rem3.set_index_map (some k.imap) dim).1
    ({ t with remanent := rem4 }, k.imap.size_local)

/-! ### create_topology input validation (lines 480 to 489) -/

/-- The cells input of `mesh::create_topology`
(`graph::AdjacencyList<std::int64_t>`): CSR offsets plus flat vertex
array. -/
structure AdjacencyList64 where
  offsets : List Int
  arr : List Int
deriving DecidableEq

/-- `AdjacencyList::num_nodes()`: number of offsets minus one. -/
def AdjacencyList64.num_nodes (a : AdjacencyList64) : Int :=
  a.offsets.length - 1

/-- `AdjacencyList::num_links(i)`: extent of row `i`. -/
def AdjacencyList64.num_links (a : AdjacencyList64) (i : Nat) : Int :=
  a.offsets.getD (i + 1) 0 - a.offsets.getD i 0

/-- Error message of the cell-vertex count check (lines 484 to 487). -/
def inconsistent_cells_msg : String :=
  "Inconsistent number of cell vertices"

/-- The input validation at the head of `mesh::create_topology` (lines
480 to 489), executed before any communication: when at least one cell is
present, the number of links of cell `0` is compared against
`num_cell_vertices(cell_type)`. -/
def create_topology_check_cells (cells : AdjacencyList64) (ct : CellType) :
    Except String Unit :=
  if cells.num_nodes > 0 then
    if cells.num_links 0 ≠ num_cell_vertices ct then .error inconsistent_cells_msg
    else .ok ()
  else .ok ()

/-! ### on_boundary (lines 153 to 213) -/

/-- Error message for an invalid entity dimension (lines 159 to 160). -/
def invalid_dim_msg : String :=
  "Invalid entity dimension"

/-- `Topology::on_boundary` (lines 153 to 213).  Arguments: `tdim` is the
topological dimension; `dim` the requested entity dimension; `imSize d`
models `index_map(d)->size_local() + index_map(d)->num_ghosts()`;
`interior_facets` the interior-facet marker vector; `fe_offsets` and
`fe_indices` the CSR data of `connectivity(tdim - 1, dim)`.  The
dimension guard comes first; the marker is sized by `imSize dim`; the
iteration bound `num_facets` is taken from `imSize (dim - 1)` exactly as
in the source (line 172 reads `index_map(dim - 1)`); the facet special
case negates the first `num_facets` interior markers in place, and the
general case marks every entity incident to a facet whose interior
marker is false. -/
def on_boundary (tdim dim : Int) (imSize : Int → Int)
    (interior_facets : List Bool) (fe_offsets fe_indices : List Int) :
    Except String (List Bool) :=
  if dim ≥ tdim ∨ dim < 0 then .error invalid_dim_msg
  else
    let marker := List.replicate (imSize dim).toNat false
    let num_facets := (imSize (dim - 1)).toNat
    if dim = tdim - 1 then
      .ok ((List.range num_facets).foldl
        (fun m i => m.set i (!(interior_facets.getD i false))) marker)
    else
      .ok ((List.range num_facets).foldl
        (fun m i =>
          if !(interior_facets.getD i false) then
            let lo := (fe_offsets.getD i 0).toNat
            let hi := (fe_offsets.getD (i + 1) 0).toNat
            (List.range (hi - lo)).foldl
              (fun m2 j => m2.set (fe_indices.getD (lo + j) 0).toNat true) m
          else m)
        marker)

/-! ### Permutation caching operations (lines 270 to 312 and 441 to 471) -/

/-- Result of the external kernel
`PermutationComputation::compute_entity_permutations` (spec section 6):
facet permutations and cell permutation info, produced in one pass. -/
structure PermKernel where
  facet : List Nat
  cell : List Nat

/-- The operations of the permutation caching API. -/
inductive PermOp
  | getCell
  | getFacet
  | createPerms
  | discardRemanent
  | dropCacheLayer

/-- One step of the permutation caching API on a topology state.
`getCell` is `Topology::get_cell_permutation_info` (lines 270 to 293): if
the cell permutations are visible through the cache chain the state is
unchanged, otherwise a scratch runs `create_entity_permutations` and both
tables are copied into the cache layer.  `getFacet` is
`Topology::get_facet_permutations` (lines 295 to 312): present facet
permutations leave the state unchanged, otherwise it defers to the
`getCell` path.  `createPerms` is `Topology::create_entity_permutations`
(lines 441 to 471): if the cell permutations were already available the
facet permutations are copied alongside them into remanent storage,
otherwise the kernel output pair is stored (facet first, then cell).
`discardRemanent` is `Topology::discard_remanent_storage` (Topology.h
lines 236 to 240): the remanent layer is replaced by a fresh one.
`dropCacheLayer` models the expiry of a cache layer once no lock
references it: its entries disappear together. -/
def permStep (k : PermKernel) (t : TopologyState) : PermOp → TopologyState
  | .getCell =>
    if (t.cache_cell_perms).isSome then t
    else
      let c1 := (t.cacheLayer.set_facet_permutations (some k.facet)).1
      let c2 := (c1.set_cell_permutations (some k.cell)).1
      { t with cacheLayer := c2 }
  | .getFacet =>
    if (t.cache_facet_perms).isSome then t
    else if (t.cache_cell_perms).isSome then t
    else
      let c1 := (t.cacheLayer.set_facet_permutations (some k.facet)).1
      let c2 := (c1.set_cell_permutations (some k.cell)).1
      { t with cacheLayer := c2 }
  | .createPerms =>
    let (rem1, perms) := t.remanent.set_cell_permutations t.cache_cell_perms
    match perms with
    | some _ =>
      let rem2 := (rem1.set_facet_permutations t.cache_facet_perms).1
      { t with remanent := rem2 }
    | none =>
      let rem2 := (rem1.set_facet_permutations (some k.facet)).1
      let rem3 := (rem2.set_cell_permutations (some k.cell)).1
      { t with remanent := rem3 }
  | .discardRemanent => { t with remanent := emptyStorage }
  | .dropCacheLayer => { t with cacheLayer := emptyStorage }

/-- Fold a list of permutation operations from a start state. -/
def runPerms (k : PermKernel) (t : TopologyState) (ops : List PermOp) : TopologyState :=
  ops.foldl (permStep k) t

/-- Both permutation tables of a storage are present or absent together. -/
def permsTogether (s : TopologyStorage) : Prop :=
  s.cell_permutations.isSome = s.facet_permutations.isSome

/-- The permutation invariant of a topology state: each storage of the
chain caches the two permutation tables together. -/
def PermInv (t : TopologyState) : Prop :=
  permsTogether t.cacheLayer ∧ permsTogether t.remanent

/-- A topology state as produced by `mesh::create_topology` (lines 698
to 712 and 755 to 768): the remanent storage holds index maps and
connectivities but no permutation tables, the cache layer is empty. -/
def freshTopology (ct : CellType) (ims : Int → Option IndexMap)
    (cns : Int → Int → Option AdjList) : TopologyState :=
  { permanent := emptyStorage
    remanent :=
      { index_maps := ims
        conns := cns
        interior_facets := none
        cell_permutations := none
        facet_permutations := none }
    cacheLayer := emptyStorage
    cell_type := ct }

/-! ### Concrete inputs used by the claim theorems -/

/-- Two ranks, each referencing a single unresolved index: rank `0` asks
about index `5`, rank `1` about index `7`. -/
def uPair : Nat → List Int
  | 0 => [5]
  | 1 => [7]
  | _ => []

/-- Two ranks sharing index `5`: rank `0` asks about `5`, rank `1` about
`5` and `9`. -/
def uShare : Nat → List Int
  | 0 => [5]
  | 1 => [5, 9]
  | _ => []

/-- A router sending every index to rank `0`. -/
def fZero : Int → Nat := fun _ => 0

/-- Cells input with two triangle-shaped rows where the second row has
only two vertices: offsets `[0, 3, 5]`. -/
def c5_cells : AdjacencyList64 :=
  { offsets := [0, 3, 5], arr := [0, 1, 2, 1, 2] }

/-- A rank's cell list with one owned cell `{0, 1, 2}` and one ghost cell
`{3, 4, 5}` sharing no vertex with the owned cell. -/
def c10_cells : List (List Int) := [[0, 1, 2], [3, 4, 5]]

/-- Index-map sizes of a two-triangle square mesh (topological dimension
two): four vertices, five edges, two cells. -/
def c6_imSize : Int → Int := fun d =>
  if d = 0 then 4 else if d = 1 then 5 else if d = 2 then 2 else 0

/-- Interior-facet marker of the two-triangle square mesh: only edge `2`
(the diagonal) is interior. -/
def c6_interior : List Bool := [false, false, true, false, false]

/-- A remanent storage providing exactly the four essential items for a
triangle topology (tdim `2`). -/
def c4_storage : TopologyStorage :=
  let s1 := (emptyStorage.set_index_map (some { size_local := 4, num_ghosts := 0 }) 0).1
  let s2 := (s1.set_index_map (some { size_local := 2, num_ghosts := 0 }) 2).1
  let s3 := (s2.set_connectivity (some { offsets := [0, 3, 6], arr := [0, 1, 2, 1, 2, 3] }) 2 0).1
  (s3.set_connectivity (some { offsets := [0, 1, 2, 3, 4], arr := [0, 1, 2, 3] }) 0 0).1

/-- The topology state used by the `create_entities` witness: essential
data for a triangle topology in remanent storage, nothing cached. -/
def c7_topology : TopologyState :=
  { permanent := emptyStorage
    remanent := c4_storage
    cacheLayer := emptyStorage
    cell_type := CellType.triangle }

/-- Concrete kernel output for the `create_entities` witness. -/
def c7_kernel : EntityKernelResult :=
  { cell_entity := { offsets := [0, 3, 6], arr := [0, 1, 2, 2, 3, 4] }
    entity_vertex := { offsets := [0, 2, 4, 6, 8, 10], arr := [0, 1, 0, 2, 1, 2, 1, 3, 2, 3] }
    imap := { size_local := 5, num_ghosts := 0 } }

/-! ### Claim theorems -/

/-- C10: `compute_index_sharing` requires a non-empty `unknown_indices`
vector: its unconditional dereference of the maximum element is undefined
exactly when the vector is empty, and an empty vector is reachable from
`create_topology` — a rank with a non-empty set of ghost cells whose
vertices share nothing with its locally owned cells classifies no vertex
as unresolved. -/
theorem compute_index_sharing_requires_nonempty :
    (∀ u : List Int, compute_index_sharing_max_index u = none ↔ u = [])
    ∧ classify_unknown c10_cells 1 = []
    ∧ c10_cells.drop 1 ≠ [] := by
  refine ⟨?_, by decide, by decide⟩
  intro u
  cases u with
  | nil => simp [compute_index_sharing_max_index, maxElement]
  | cons x xs => simp [compute_index_sharing_max_index, maxElement]

/-- C2 counterexample: with two ranks whose maximal referenced indices
are `5` and `7`, the code's estimate of the global index space is
`5 + 7 + 1 = 13` (the all-reduce uses `MPI_SUM`), not the overall maximum
plus one, which would be `8`. -/
theorem global_space_not_overall_max :
    global_space 2 uPair = some 13
    ∧ overallMaxIndex 2 uPair = some 7
    ∧ (13 : Int) ≠ 7 + 1 := by decide

/-- C3: the first post-round-two check in `create_topology` is
`assert(c = (nghosts + nlocal))` — an assignment.  In a state with
`nlocal = 1`, `nghosts = 2` where only one ghost pair arrived across both
rounds, the counter ends at `2` and one ghost slot still holds `-1`, yet
the count assert condition evaluates to true (it merely tests
`nghosts + nlocal` against zero); the intended comparison would have
failed. -/
theorem ghost_count_check_is_assignment :
    c3_state.2.1 = 2
    ∧ c3_state.2.2 = [100, -1]
    ∧ (ghost_fill_check c3_state.2.1 1 2 c3_state.2.2).2.1 = true
    ∧ ghost_count_matches c3_state.2.1 1 2 = false
    ∧ (-1 : Int) ∈ c3_state.2.2 := by decide

/-- C4: constructing a `Topology` from a storage holding all four
essential items succeeds, but the constructor's copy block (Topology.h
lines 91 to 97) stores `connectivity(tdim, 0)` twice and never stores
`connectivity(0, 0)`, so the permanent storage lacks `connectivity(0, 0)`
even though the supplied storage provides it. -/
theorem topology_construct_permanent_misses_conn00 :
    (Topology.construct CellType.triangle c4_storage).toOption.map
      (fun t => ((t.permanent.conns 0 0).isSome, (t.remanent.conns 0 0).isSome,
        (t.permanent.conns 2 0).isSome, (t.permanent.index_maps 0).isSome,
        (t.permanent.index_maps 2).isSome))
    = some (false, true, true, true, true) := by decide

/-- C5 counterexample: an input whose first cell has the correct vertex
count but whose second cell does not passes the validation of
`create_topology` without an error, so the check does not fail "whenever
any cell" is inconsistent. -/
theorem create_topology_checks_first_cell_only :
    create_topology_check_cells c5_cells CellType.triangle = Except.ok ()
    ∧ c5_cells.num_links 1 ≠ num_cell_vertices CellType.triangle :=
  ⟨rfl, by decide⟩

/-- C5 amended: the validation at the head of `create_topology` fails,
locally and before any communication, exactly when the input has at least
one cell and the vertex count of cell `0` differs from the cell type's;
cells beyond the first are not examined. -/
theorem create_topology_check_cells_iff (cells : AdjacencyList64) (ct : CellType) :
    create_topology_check_cells cells ct = Except.error inconsistent_cells_msg
    ↔ (cells.num_nodes > 0 ∧ cells.num_links 0 ≠ num_cell_vertices ct) := by
  by_cases h1 : cells.num_nodes > 0 <;>
    by_cases h2 : cells.num_links 0 ≠ num_cell_vertices ct <;>
      simp [create_topology_check_cells, h1, h2]

/-- C6: on the two-triangle square mesh (four vertices, five edges, two
cells, only the diagonal edge interior), `on_boundary(1)` with
`tdim = 2` hits the facet special case but sizes its loop by
`index_map(dim - 1)` — the vertex count `4` — so only the first four of
the five facet markers are negated: the result is not the pointwise
negation of the interior-facet marker (boundary edge `4` stays `false`). -/
theorem on_boundary_facet_case_wrong_extent :
    on_boundary 2 1 c6_imSize c6_interior [] []
      = Except.ok [true, true, false, true, false]
    ∧ [true, true, false, true, false] ≠ c6_interior.map (fun b => !b) :=
  ⟨rfl, by decide⟩

/-- C9: `on_boundary` fails with the invalid-dimension error whenever
`dim ≥ tdim` or `dim < 0`, and the result is then independent of every
other argument — no data is computed or stored. -/
theorem on_boundary_invalid_dim (tdim dim : Int) (ims1 ims2 : Int → Int)
    (if1 if2 : List Bool) (o1 o2 i1 i2 : List Int)
    (h : dim ≥ tdim ∨ dim < 0) :
    on_boundary tdim dim ims1 if1 o1 i1 = Except.error invalid_dim_msg
    ∧ on_boundary tdim dim ims1 if1 o1 i1 = on_boundary tdim dim ims2 if2 o2 i2 := by
  unfold on_boundary
  rw [if_pos h, if_pos h]
  exact ⟨rfl, rfl⟩

/-- Witness for the invalid-dimension theorem at `tdim = 2`, `dim = 5`. -/
theorem on_boundary_invalid_dim_witness :
    on_boundary 2 5 (fun _ => 0) [] [] [] = Except.error invalid_dim_msg
    ∧ on_boundary 2 5 (fun _ => 0) [] [] []
      = on_boundary 2 5 (fun _ => 1) [true] [0, 1] [0] :=
  on_boundary_invalid_dim 2 5 (fun _ => 0) (fun _ => 1) [] [true] [] [0, 1] [] [0]
    (Or.inl (by norm_num))

/-! ### Helper lemmas about the storage setters -/

/-- Setting a connectivity into storage makes the entry present. -/
theorem set_connectivity_isSome (s : TopologyStorage) (x : AdjList) (d0 d1 : Int) :
    (((s.set_connectivity (some x) d0 d1).1).conns d0 d1).isSome := by
  unfold TopologyStorage.set_connectivity
  cases hc : s.conns d0 d1 <;> simp [hc]

/-- Setting a connectivity never removes another present entry. -/
theorem set_connectivity_preserves_isSome (s : TopologyStorage) (v : Option AdjList)
    (d0 d1 a b : Int) (h : (s.conns a b).isSome) :
    (((s.set_connectivity v d0 d1).1).conns a b).isSome := by
  unfold TopologyStorage.set_connectivity
  cases hc : s.conns d0 d1 with
  | some old => simpa using h
  | none =>
    cases v with
    | none => simpa using h
    | some x =>
      by_cases hab : a = d0 ∧ b = d1 <;> simp [hab, h]

/-- Setting a connectivity does not touch the index maps. -/
theorem set_connectivity_index_maps (s : TopologyStorage) (v : Option AdjList)
    (d0 d1 : Int) : ((s.set_connectivity v d0 d1).1).index_maps = s.index_maps := by
  unfold TopologyStorage.set_connectivity
  cases hc : s.conns d0 d1 with
  | some old => rfl
  | none => cases v <;> rfl

/-- Setting an index map does not touch the connectivities. -/
theorem set_index_map_conns (s : TopologyStorage) (v : Option IndexMap) (d : Int) :
    ((s.set_index_map v d).1).conns = s.conns := by
  unfold TopologyStorage.set_index_map
  cases hc : s.index_maps d with
  | some old => rfl
  | none => cases v <;> rfl

/-- Setting an index map makes it present. -/
theorem set_index_map_isSome (s : TopologyStorage) (x : IndexMap) (d : Int) :
    (((s.set_index_map (some x) d).1).index_maps d).isSome := by
  unfold TopologyStorage.set_index_map
  cases hc : s.index_maps d <;> simp [hc]

/-- A connectivity set on a present entry is a no-op. -/
theorem set_connectivity_of_isSome (s : TopologyStorage) (v : Option AdjList)
    (d0 d1 : Int) (h : (s.conns d0 d1).isSome) :
    (s.set_connectivity v d0 d1).1 = s := by
  unfold TopologyStorage.set_connectivity
  cases hc : s.conns d0 d1 with
  | some old => rfl
  | none => rw [hc] at h; simp at h

/-- An index map set on a present entry is a no-op. -/
theorem set_index_map_of_isSome (s : TopologyStorage) (v : Option IndexMap)
    (d : Int) (h : (s.index_maps d).isSome) :
    (s.set_index_map v d).1 = s := by
  unfold TopologyStorage.set_index_map
  cases hc : s.index_maps d with
  | some old => rfl
  | none => rw [hc] at h; simp at h

/-- When all three entries written by `create_entities` are already
present in remanent storage, a further call is the `-1` no-op. -/
theorem create_entities_noop (t1 : TopologyState) (dim : Int) (k : EntityKernelResult)
    (h1 : (t1.remanent.conns dim 0).isSome)
    (h2 : (t1.remanent.index_maps dim).isSome)
    (h3 : (t1.remanent.conns (cell_dim t1.cell_type) dim).isSome) :
    t1.create_entities dim k = (t1, -1) := by
  obtain ⟨c1, hc1⟩ := Option.isSome_iff_exists.mp h1
  have hset : t1.remanent.set_connectivity (t1.cache_conn dim 0) dim 0
      = (t1.remanent, some c1) := by
    unfold TopologyStorage.set_connectivity
    rw [hc1]
  unfold TopologyState.create_entities
  rw [hset]
  show ({ t1 with remanent :=
      ((t1.remanent.set_index_map (t1.cache_im dim) dim).1.set_connectivity
        (t1.cache_conn (cell_dim t1.cell_type) dim) (cell_dim t1.cell_type) dim).1 },
    (-1 : Int)) = (t1, -1)
  rw [set_index_map_of_isSome _ _ _ h2, set_connectivity_of_isSome _ _ _ _ h3]

/-- C7: starting from a state in which the `(dim, 0)` connectivity is not
available through the cache chain, the first `create_entities(dim)` call
returns the new index map's local size and the second returns the
sentinel `-1` while leaving the whole state — in particular the stored
entity data — unchanged. -/
theorem create_entities_idempotent (t : TopologyState) (dim : Int)
    (k : EntityKernelResult) (h : t.cache_conn dim 0 = none) :
    (t.create_entities dim k).2 = k.imap.size_local
    ∧ ((t.create_entities dim k).1.create_entities dim k) = ((t.create_entities dim k).1, -1) := by
  have hcache : t.cacheLayer.conns dim 0 = none := by
    unfold TopologyState.cache_conn at h
    cases hc : t.cacheLayer.conns dim 0 <;> rw [hc] at h <;> simp_all
  have hrem : t.remanent.conns dim 0 = none := by
    unfold TopologyState.cache_conn at h
    rw [hcache] at h
    exact h
  have hset : t.remanent.set_connectivity (t.cache_conn dim 0) dim 0
      = (t.remanent, none) := by
    rw [h]
    unfold TopologyStorage.set_connectivity
    rw [hrem]
  have hfirst : t.create_entities dim k
      = ({ t with remanent :=
            ((((t.remanent.set_connectivity (some k.cell_entity)
                  (cell_dim t.cell_type) dim).1.set_connectivity
                (some k.entity_vertex) dim 0).1.set_index_map
              (some k.imap) dim).1) }, k.imap.size_local) := by
    unfold TopologyState.create_entities
    rw [hset]
  set rem2 := (t.remanent.set_connectivity (some k.cell_entity)
      (cell_dim t.cell_type) dim).1 with hrem2
  set rem3 := (rem2.set_connectivity (some k.entity_vertex) dim 0).1 with hrem3
  set rem4 := (rem3.set_index_map (some k.imap) dim).1 with hrem4
  have h1 : (rem4.conns dim 0).isSome := by
    rw [hrem4, set_index_map_conns]
    exact set_connectivity_isSome _ _ _ _
  have h2 : (rem4.index_maps dim).isSome := set_index_map_isSome _ _ _
  have h3 : (rem4.conns (cell_dim t.cell_type) dim).isSome := by
    rw [hrem4, set_index_map_conns, hrem3]
    exact set_connectivity_preserves_isSome _ _ _ _ _ _
      (set_connectivity_isSome _ _ _ _)
  refine ⟨by rw [hfirst], ?_⟩
  rw [hfirst]
  exact create_entities_noop _ dim k h1 h2 h3

/-- Witness for the idempotence theorem: a triangle topology holding only
the essential data, with `dim = 1`. -/
theorem create_entities_idempotent_witness :
    (c7_topology.create_entities 1 c7_kernel).2 = 5
    ∧ ((c7_topology.create_entities 1 c7_kernel).1.create_entities 1 c7_kernel)
      = ((c7_topology.create_entities 1 c7_kernel).1, -1) := by
  have h := create_entities_idempotent c7_topology 1 c7_kernel (by
    show c7_topology.cache_conn 1 0 = none
    rfl)
  exact ⟨h.1, h.2⟩

/-! ### The per-rank maximum and the global space estimate (C2) -/

/-- The comparison step of `std::max_element` computes the binary
maximum. -/
theorem if_lt_eq_max : (fun a b : Int => if a < b then b else a) = fun a b : Int => max a b := by
  funext a b
  by_cases hab : a < b
  · simp [hab, max_eq_right (le_of_lt hab)]
  · simp [hab, max_eq_left (le_of_not_lt hab)]

/-- A fold of the binary maximum is a member of the inputs and an upper
bound for them. -/
theorem foldl_max_spec (xs : List Int) : ∀ x : Int,
    (xs.foldl max x ∈ x :: xs) ∧ x ≤ xs.foldl max x ∧ ∀ y ∈ xs, y ≤ xs.foldl max x := by
  induction xs with
  | nil => intro x; simp
  | cons b bs ih =>
    intro x
    obtain ⟨hmem, hle, hall⟩ := ih (max x b)
    have hfold : (b :: bs).foldl max x = bs.foldl max (max x b) := by
      simp [List.foldl_cons]
    refine ⟨?_, ?_, ?_⟩
    · rw [hfold]
      rcases List.mem_cons.mp hmem with hmm | hmm
      · rcases max_choice x b with hc | hc
        · rw [hmm, hc]; exact List.mem_cons_self _ _
        · rw [hmm, hc]; exact List.mem_cons_of_mem _ (List.mem_cons_self _ _)
      · exact List.mem_cons_of_mem _ (List.mem_cons_of_mem _ hmm)
    · rw [hfold]
      exact le_trans (le_max_left x b) hle
    · intro y hy
      rw [hfold]
      rcases List.mem_cons.mp hy with hyy | hyy
      · rw [hyy]; exact le_trans (le_max_right x b) hle
      · exact hall y hyy

/-- `maxElement` of a non-empty list returns an element that bounds every
element of the list. -/
theorem maxElement_spec (l : List Int) (hl : l ≠ []) :
    ∃ m, maxElement l = some m ∧ m ∈ l ∧ ∀ y ∈ l, y ≤ m := by
  cases l with
  | nil => exact absurd rfl hl
  | cons x xs =>
    refine ⟨xs.foldl max x, ?_, ?_, ?_⟩
    · show some (xs.foldl (fun a b => if a < b then b else a) x) = _
      rw [if_lt_eq_max]
    · exact (foldl_max_spec xs x).1
    · intro y hy
      rcases List.mem_cons.mp hy with hyy | hyy
      · rw [hyy]; exact (foldl_max_spec xs x).2.1
      · exact (foldl_max_spec xs x).2.2 y hyy

/-- Collecting the per-rank maxima over `range P` succeeds when every
participating rank has a non-empty vector, and entry `i` is the maximum
of rank `i`'s vector. -/
theorem mapM_range_maxElement (P : Nat) (unknown : Nat → List Int)
    (h : ∀ p, p < P → unknown p ≠ []) :
    ∃ ms : List Int, ((List.range P).mapM fun p => maxElement (unknown p)) = some ms
      ∧ ms.length = P
      ∧ ∀ i, i < P → ms.getD i 0 ∈ unknown i ∧ ∀ y ∈ unknown i, y ≤ ms.getD i 0 := by
  induction P with
  | zero => exact ⟨[], by rw [List.range_zero, List.mapM_nil]; rfl, by simp, by omega⟩
  | succ n ih =>
    obtain ⟨ms, hms, hlen, hspec⟩ := ih (fun p hp => h p (by omega))
    obtain ⟨m, hm, hmem, hbound⟩ := maxElement_spec (unknown n) (h n (by omega))
    refine ⟨ms ++ [m], ?_, by simp [hlen], ?_⟩
    · rw [List.range_succ, List.mapM_append, hms, List.mapM_cons, hm, List.mapM_nil]
      rfl
    · intro i hi
      by_cases hin : i < n
      · have hgd : (ms ++ [m]).getD i 0 = ms.getD i 0 := by
          show ((ms ++ [m]).get? i).getD 0 = (ms.get? i).getD 0
          rw [List.get?_append (by omega)]
        rw [hgd]
        exact hspec i hin
      · have hieq : i = n := by omega
        have hgd : (ms ++ [m]).getD i 0 = m := by
          show ((ms ++ [m]).get? i).getD 0 = m
          rw [List.get?_append_right (by omega), hieq, hlen]
          simp
        rw [hgd, hieq]
        exact ⟨hmem, hbound⟩

/-- C2 amended: the estimate of the global index space computed by
`compute_index_sharing` is the sum across ranks of each rank's maximum
referenced global index, plus one — the all-reduce combines the per-rank
maxima with `MPI_SUM` (sum-reduce), not with a max-reduce. -/
theorem global_space_sum_of_rank_maxima (P : Nat) (unknown : Nat → List Int)
    (h : ∀ p, p < P → unknown p ≠ []) :
    ∃ ms : List Int,
      ((List.range P).mapM fun p => maxElement (unknown p)) = some ms
      ∧ global_space P unknown = some (ms.sum + 1)
      ∧ ms.length = P
      ∧ ∀ i, i < P → ms.getD i 0 ∈ unknown i ∧ ∀ y ∈ unknown i, y ≤ ms.getD i 0 := by
  obtain ⟨ms, hms, hlen, hspec⟩ := mapM_range_maxElement P unknown h
  refine ⟨ms, hms, ?_, hlen, hspec⟩
  unfold global_space
  rw [hms]
  rfl

/-- Witness for the amended global-space theorem at the two-rank input
with maxima `5` and `7`. -/
theorem global_space_sum_of_rank_maxima_witness :
    (∀ p, p < 2 → uPair p ≠ [])
    ∧ ∃ ms : List Int,
      ((List.range 2).mapM fun p => maxElement (uPair p)) = some ms
      ∧ global_space 2 uPair = some (ms.sum + 1)
      ∧ ms.length = 2
      ∧ ∀ i, i < 2 → ms.getD i 0 ∈ uPair i ∧ ∀ y ∈ uPair i, y ≤ ms.getD i 0 := by
  have hne : ∀ p, p < 2 → uPair p ≠ [] := by
    intro p hp
    interval_cases p <;> simp [uPair]
  exact ⟨hne, global_space_sum_of_rank_maxima 2 uPair hne⟩

/-! ### Helper lemmas for the permutation caching invariant (C8) -/

/-- Setting the cell permutations leaves the facet permutations alone. -/
theorem set_cell_permutations_facet (s : TopologyStorage) (v : Option (List Nat)) :
    ((s.set_cell_permutations v).1).facet_permutations = s.facet_permutations := by
  unfold TopologyStorage.set_cell_permutations
  cases s.cell_permutations <;> cases v <;> rfl

/-- Setting the facet permutations leaves the cell permutations alone. -/
theorem set_facet_permutations_cell (s : TopologyStorage) (v : Option (List Nat)) :
    ((s.set_facet_permutations v).1).cell_permutations = s.cell_permutations := by
  unfold TopologyStorage.set_facet_permutations
  cases s.facet_permutations <;> cases v <;> rfl

/-- Presence of the cell permutations after a set. -/
theorem set_cell_permutations_isSome (s : TopologyStorage) (v : Option (List Nat)) :
    (((s.set_cell_permutations v).1).cell_permutations).isSome
      = (s.cell_permutations.isSome || v.isSome) := by
  unfold TopologyStorage.set_cell_permutations
  cases hc : s.cell_permutations <;> cases v <;> simp [hc]

/-- Presence of the facet permutations after a set. -/
theorem set_facet_permutations_isSome (s : TopologyStorage) (v : Option (List Nat)) :
    (((s.set_facet_permutations v).1).facet_permutations).isSome
      = (s.facet_permutations.isSome || v.isSome) := by
  unfold TopologyStorage.set_facet_permutations
  cases hc : s.facet_permutations <;> cases v <;> simp [hc]

/-- The sentinel returned by a cell-permutation set. -/
theorem set_cell_permutations_snd_isSome (s : TopologyStorage) (v : Option (List Nat)) :
    ((s.set_cell_permutations v).2).isSome = (s.cell_permutations.isSome || v.isSome) := by
  unfold TopologyStorage.set_cell_permutations
  cases hc : s.cell_permutations <;> cases v <;> simp [hc]

/-- When the cell-permutation set returns `none`, the storage is
unchanged. -/
theorem set_cell_permutations_fst_of_none (s : TopologyStorage) (v : Option (List Nat))
    (h : (s.set_cell_permutations v).2 = none) : (s.set_cell_permutations v).1 = s := by
  unfold TopologyStorage.set_cell_permutations at h ⊢
  cases hc : s.cell_permutations with
  | some old => rfl
  | none =>
    cases v with
    | none => rfl
    | some x => simp [hc] at h

/-- Presence of the cell permutations through the cache chain. -/
theorem cache_cell_perms_isSome (t : TopologyState) :
    t.cache_cell_perms.isSome
      = (t.cacheLayer.cell_permutations.isSome || t.remanent.cell_permutations.isSome) := by
  unfold TopologyState.cache_cell_perms
  cases hc : t.cacheLayer.cell_permutations <;> simp [hc]

/-- Presence of the facet permutations through the cache chain. -/
theorem cache_facet_perms_isSome (t : TopologyState) :
    t.cache_facet_perms.isSome
      = (t.cacheLayer.facet_permutations.isSome || t.remanent.facet_permutations.isSome) := by
  unfold TopologyState.cache_facet_perms
  cases hc : t.cacheLayer.facet_permutations <;> simp [hc]

/-- Every operation of the permutation caching API preserves the
both-or-neither invariant. -/
theorem permStep_preserves_inv (k : PermKernel) (t : TopologyState) (op : PermOp)
    (h : PermInv t) : PermInv (permStep k t op) := by
  obtain ⟨h1, h2⟩ := h
  unfold permsTogether at h1 h2
  cases op with
  | getCell =>
    unfold permStep
    by_cases hv : (t.cache_cell_perms).isSome = true
    · simp only [hv, if_true]
      exact ⟨h1, h2⟩
    · simp only [hv, if_false]
      refine ⟨?_, h2⟩
      unfold permsTogether
      simp [set_cell_permutations_isSome, set_cell_permutations_facet,
        set_facet_permutations_isSome, set_facet_permutations_cell]
  | getFacet =>
    unfold permStep
    by_cases hv : (t.cache_facet_perms).isSome = true
    · simp only [hv, if_true]
      exact ⟨h1, h2⟩
    · by_cases hv2 : (t.cache_cell_perms).isSome = true
      · simp only [hv, hv2, if_false, if_true]
        exact ⟨h1, h2⟩
      · simp only [hv, hv2, if_false]
        refine ⟨?_, h2⟩
        unfold permsTogether
        simp [set_cell_permutations_isSome, set_cell_permutations_facet,
          set_facet_permutations_isSome, set_facet_permutations_cell]
  | createPerms =>
    unfold permStep
    rcases hp : (t.remanent.set_cell_permutations t.cache_cell_perms).2 with _ | x
    · have hfst := set_cell_permutations_fst_of_none _ _ hp
      have hnone : (t.remanent.cell_permutations.isSome || t.cache_cell_perms.isSome)
          = false := by
        rw [← set_cell_permutations_snd_isSome, hp]
        rfl
      rw [Bool.or_eq_false_iff] at hnone
      simp only [hp, hfst]
      refine ⟨h1, ?_⟩
      unfold permsTogether
      simp [set_cell_permutations_isSome, set_cell_permutations_facet,
        set_facet_permutations_isSome, set_facet_permutations_cell, hnone.1]
    · simp only [hp]
      refine ⟨h1, ?_⟩
      unfold permsTogether
      rw [set_facet_permutations_cell, set_cell_permutations_isSome,
        set_facet_permutations_isSome, set_cell_permutations_facet,
        cache_cell_perms_isSome, cache_facet_perms_isSome, h1, h2]
  | discardRemanent =>
    exact ⟨h1, rfl⟩
  | dropCacheLayer =>
    exact ⟨rfl, h2⟩

/-- Under the invariant, requesting either permutation table makes both
visible through the cache chain. -/
theorem both_present_after_getter (k : PermKernel) (t : TopologyState) (h : PermInv t) :
    ((permStep k t PermOp.getCell).cache_cell_perms.isSome = true
      ∧ (permStep k t PermOp.getCell).cache_facet_perms.isSome = true)
    ∧ ((permStep k t PermOp.getFacet).cache_cell_perms.isSome = true
      ∧ (permStep k t PermOp.getFacet).cache_facet_perms.isSome = true) := by
  obtain ⟨h1, h2⟩ := h
  unfold permsTogether at h1 h2
  have hview : t.cache_cell_perms.isSome = t.cache_facet_perms.isSome := by
    rw [cache_cell_perms_isSome, cache_facet_perms_isSome, h1, h2]
  constructor
  · unfold permStep
    by_cases hv : (t.cache_cell_perms).isSome = true
    · simp only [hv, if_true]
      exact ⟨trivial, by rw [← hview]; exact hv⟩
    · simp only [hv, if_false]
      constructor
      · rw [cache_cell_perms_isSome]
        simp [set_cell_permutations_isSome]
      · rw [cache_facet_perms_isSome]
        simp [set_cell_permutations_facet, set_facet_permutations_isSome]
  · unfold permStep
    by_cases hv : (t.cache_facet_perms).isSome = true
    · simp only [hv, if_true]
      exact ⟨by rw [hview]; exact hv, trivial⟩
    · have hv2 : (t.cache_cell_perms).isSome = true → False := by
        intro hc
        rw [hview] at hc
        exact hv hc
      simp only [hv, if_false, eq_false hv2, if_false]
      constructor
      · rw [cache_cell_perms_isSome]
        simp [set_cell_permutations_isSome]
      · rw [cache_facet_perms_isSome]
        simp [set_cell_permutations_facet, set_facet_permutations_isSome]

/-- C8: from a freshly constructed topology (no permutation data), every
sequence of permutation-API operations preserves the invariant that the
cell and facet permutation tables are cached together, in the cache layer
as well as in the remanent storage; and whichever getter is called next
— cell permutation info or facet permutations — leaves both tables
available through the cache chain. -/
theorem perms_cached_together (k : PermKernel) (ct : CellType)
    (ims : Int → Option IndexMap) (cns : Int → Int → Option AdjList)
    (ops : List PermOp) :
    PermInv (runPerms k (freshTopology ct ims cns) ops)
    ∧ (runPerms k (freshTopology ct ims cns) (ops ++ [PermOp.getCell])).cache_cell_perms.isSome = true
    ∧ (runPerms k (freshTopology ct ims cns) (ops ++ [PermOp.getCell])).cache_facet_perms.isSome = true
    ∧ (runPerms k (freshTopology ct ims cns) (ops ++ [PermOp.getFacet])).cache_cell_perms.isSome = true
    ∧ (runPerms k (freshTopology ct ims cns) (ops ++ [PermOp.getFacet])).cache_facet_perms.isSome = true := by
  have hrun : ∀ (os : List PermOp) (t : TopologyState), PermInv t →
      PermInv (runPerms k t os) := by
    intro os
    induction os with
    | nil => intro t ht; exact ht
    | cons o os' ih =>
      intro t ht
      unfold runPerms at *
      rw [List.foldl_cons]
      exact ih _ (permStep_preserves_inv k t o ht)
  have hinit : PermInv (freshTopology ct ims cns) := ⟨rfl, rfl⟩
  have hI := hrun ops _ hinit
  have happ : ∀ op : PermOp, runPerms k (freshTopology ct ims cns) (ops ++ [op])
      = permStep k (runPerms k (freshTopology ct ims cns) ops) op := by
    intro op
    unfold runPerms
    rw [List.foldl_append]
    rfl
  obtain ⟨⟨hc1, hc2⟩, hf1, hf2⟩ := both_present_after_getter k _ hI
  rw [happ PermOp.getCell, happ PermOp.getFacet]
  exact ⟨hI, hc1, hc2, hf1, hf2⟩

/-! ### Helper lemmas for the ownership arbitration (C1) -/

/-- Association-list lookup over key-tagged values hits the tag. -/
theorem lookup_map_pair {α : Type} (g : Int → α) :
    ∀ (sv : List Int) (a : Int), a ∈ sv →
      (sv.map fun kk => (kk, g kk)).lookup a = some (g a) := by
  intro sv
  induction sv with
  | nil => intro a ha; simp at ha
  | cons kk rest ih =>
    intro a ha
    by_cases hak : a = kk
    · subst hak
      simp [List.lookup]
    · have hb : (a == kk) = false := by simp [hak]
      rcases List.mem_cons.mp ha with h1 | h1
      · exact absurd h1 hak
      · simp only [List.map_cons, List.lookup, hb]
        exact ih a h1

/-- Association-list lookup misses when the key is not among the tags. -/
theorem lookup_map_pair_none {α : Type} (g : Int → α) :
    ∀ (sv : List Int) (a : Int), a ∉ sv →
      (sv.map fun kk => (kk, g kk)).lookup a = none := by
  intro sv
  induction sv with
  | nil => intro a _; rfl
  | cons kk rest ih =>
    intro a ha
    have hak : ¬ a = kk := fun hcon => ha (hcon ▸ List.mem_cons_self kk rest)
    have hb : (a == kk) = false := by simp [hak]
    simp only [List.map_cons, List.lookup, hb]
    exact ih a (fun hcon => ha (List.mem_cons_of_mem kk hcon))

/-- A successful lookup in the left part of an append wins. -/
theorem lookup_append_some {α : Type} (l1 l2 : List (Int × α)) (a : Int) (v : α)
    (h : l1.lookup a = some v) : (l1 ++ l2).lookup a = some v := by
  induction l1 with
  | nil => simp [List.lookup] at h
  | cons kb rest ih =>
    obtain ⟨kk, b⟩ := kb
    by_cases hak : a = kk
    · subst hak
      simp [List.lookup] at h ⊢
      exact h
    · have hb : (a == kk) = false := by simp [hak]
      simp only [List.lookup, hb, List.cons_append] at h ⊢
      exact ih h

/-- A failed lookup in the left part of an append falls through. -/
theorem lookup_append_none {α : Type} (l1 l2 : List (Int × α)) (a : Int)
    (h : l1.lookup a = none) : (l1 ++ l2).lookup a = l2.lookup a := by
  induction l1 with
  | nil => rfl
  | cons kb rest ih =>
    obtain ⟨kk, b⟩ := kb
    by_cases hak : a = kk
    · subst hak
      simp [List.lookup] at h
    · have hb : (a == kk) = false := by simp [hak]
      simp only [List.lookup, hb, List.cons_append] at h ⊢
      exact ih h

/-- Decoding a reply built as length-prefixed blocks recovers the blocks,
paired with the indices they answer. -/
theorem decodeOwners_flatMap (g : Int → List Nat) :
    ∀ sv : List Int,
      decodeOwners sv (sv.flatMap fun gi => (g gi).length :: g gi)
        = sv.map fun gi => (gi, g gi) := by
  intro sv
  induction sv with
  | nil => rfl
  | cons gi rest ih =>
    show (gi, (g gi ++ rest.flatMap fun x => (g x).length :: g x).take (g gi).length)
        :: decodeOwners rest
          ((g gi ++ rest.flatMap fun x => (g x).length :: g x).drop (g gi).length)
      = (gi, g gi) :: rest.map fun x => (x, g x)
    rw [List.take_left, List.drop_left, ih]

/-- Filtering for an absent element yields nothing. -/
theorem filter_eq_nil_of_not_mem (l : List Int) (a : Int) (ha : a ∉ l) :
    l.filter (fun x => x = a) = [] := by
  rw [List.filter_eq_nil]
  intro b hb
  simp only [decide_eq_true_eq]
  intro hba
  exact ha (hba ▸ hb)

/-- In a duplicate-free list, filtering for one present element yields
that element once. -/
theorem filter_eq_self_of_nodup (l : List Int) (hnd : l.Nodup) (a : Int)
    (ha : a ∈ l) : l.filter (fun x => x = a) = [a] := by
  induction l with
  | nil => simp at ha
  | cons x rest ih =>
    rw [List.nodup_cons] at hnd
    by_cases hxa : x = a
    · subst hxa
      have hrest := filter_eq_nil_of_not_mem rest x hnd.1
      simp [List.filter_cons, hrest]
    · have hmem : a ∈ rest := by
        rcases List.mem_cons.mp ha with h1 | h1
        · exact absurd h1.symm hxa
        · exact h1
      rw [List.filter_cons]
      simp only [decide_eq_true_eq, if_neg hxa]
      exact ih hnd.2 hmem

/-- Collecting singleton blocks over a guard is a filter. -/
theorem flatMap_ite_singleton (l : List Nat) (pr : Nat → Prop) [DecidablePred pr] :
    (l.flatMap fun x => if pr x then [x] else []) = l.filter fun x => pr x := by
  induction l with
  | nil => rfl
  | cons x rest ih =>
    rw [List.flatMap_cons, ih]
    by_cases hp : pr x <;> simp [hp, List.filter_cons]

/-- The sharing list aggregated at the arbiter responsible for `gi` is
exactly the ascending list of ranks that asked about `gi`, provided no
rank lists an index twice. -/
theorem aggregateAt_eq_askers (P : Nat) (f : Int → Nat) (unknown : Nat → List Int)
    (gi : Int) (hnd : ∀ p, (unknown p).Nodup) :
    aggregateAt P f unknown (f gi) gi = askers P unknown gi := by
  unfold aggregateAt askers
  have hterm : ∀ p : Nat,
      (((sendIndicesTo f (unknown p) (f gi)).filter fun x => x = gi).map fun _ => p)
        = if gi ∈ unknown p then [p] else [] := by
    intro p
    unfold sendIndicesTo
    rw [List.filter_filter]
    have hpred : (fun a : Int => decide (a = gi) && decide (f a = f gi))
        = fun a : Int => decide (a = gi) := by
      funext a
      by_cases hag : a = gi
      · subst hag; simp
      · simp [hag]
    rw [hpred]
    by_cases hmem : gi ∈ unknown p
    · rw [filter_eq_self_of_nodup (unknown p) (hnd p) gi hmem]
      simp [hmem]
    · rw [filter_eq_nil_of_not_mem (unknown p) gi hmem]
      simp [hmem]
  rw [funext hterm]
  exact flatMap_ite_singleton (List.range P) (fun p => gi ∈ unknown p)

/-- The list of askers is ascending, so its first entry is its minimum;
it is non-empty as soon as one rank below `P` asked. -/
theorem askers_sorted_head (P : Nat) (unknown : Nat → List Int) (gi : Int) (r : Nat)
    (hr : r < P) (hgi : gi ∈ unknown r) :
    ∃ o rest, askers P unknown gi = o :: rest ∧ ∀ p ∈ askers P unknown gi, o ≤ p := by
  have hpair : (askers P unknown gi).Pairwise (· < ·) :=
    List.Pairwise.sublist (List.filter_sublist _) (List.pairwise_lt_range P)
  have hmem : r ∈ askers P unknown gi := by
    unfold askers
    rw [List.mem_filter]
    exact ⟨List.mem_range.mpr hr, by simp [hgi]⟩
  rcases hcase : askers P unknown gi with _ | ⟨o, rest⟩
  · rw [hcase] at hmem
    simp at hmem
  · refine ⟨o, rest, rfl, ?_⟩
    intro p hp
    rw [hcase] at hpair
    rcases List.mem_cons.mp hp with h1 | h1
    · exact le_of_eq h1.symm
    · exact le_of_lt ((List.pairwise_cons.mp hpair).1 p h1)

/-- Lookup of `gi` in the asker-side reply map, scanning the arbiters in
order: only the arbiter `f gi` contributes an entry for `gi`. -/
theorem lookup_over_arbiters (f : Int → Nat) (ur : List Int) (gi : Int)
    (G : Nat → Int → List Nat) (hgi : gi ∈ ur) :
    ∀ qs : List Nat, f gi ∈ qs →
      (qs.flatMap fun q => (sendIndicesTo f ur q).map fun k => (k, G q k)).lookup gi
        = some (G (f gi) gi) := by
  intro qs
  induction qs with
  | nil => intro h; simp at h
  | cons q qs2 ih =>
    intro hq
    rw [List.flatMap_cons]
    by_cases hqf : q = f gi
    · subst hqf
      apply lookup_append_some
      apply lookup_map_pair
      unfold sendIndicesTo
      rw [List.mem_filter]
      exact ⟨hgi, by simp⟩
    · rw [lookup_append_none]
      · apply ih
        rcases List.mem_cons.mp hq with h1 | h1
        · exact absurd h1.symm hqf
        · exact h1
      · apply lookup_map_pair_none
        unfold sendIndicesTo
        intro hmem
        rw [List.mem_filter] at hmem
        have h2 := hmem.2
        simp only [decide_eq_true_eq] at h2
        exact hqf h2.symm

/-- C1: for every asking rank `r` and every index `gi` it asked about,
the map returned by `compute_index_sharing` at `r` maps `gi` to the full
ascending list of source ranks that asked about `gi`; the arbiter
responsible for `gi` aggregated exactly that list; and its first entry is
the numerically lowest asking rank — the designated owner.  Hypotheses:
rank lists are duplicate-free (they come from `std::set` contents at the
call site) and the router stays below the communicator size. -/
theorem compute_index_sharing_owner_lowest (P : Nat) (f : Int → Nat)
    (unknown : Nat → List Int) (r : Nat) (gi : Int)
    (hnd : ∀ p, (unknown p).Nodup) (hr : r < P) (hgi : gi ∈ unknown r)
    (hfgi : f gi < P) :
    (compute_index_sharing_result P f unknown r).lookup gi = some (askers P unknown gi)
    ∧ aggregateAt P f unknown (f gi) gi = askers P unknown gi
    ∧ ∃ o rest, askers P unknown gi = o :: rest ∧ ∀ p ∈ askers P unknown gi, o ≤ p := by
  have hagg := aggregateAt_eq_askers P f unknown gi hnd
  have hL : (fun q => decodeOwners (sendIndicesTo f (unknown r) q)
        (returnFlat P f unknown q r))
      = fun q => (sendIndicesTo f (unknown r) q).map
        fun k => (k, aggregateAt P f unknown q k) := by
    funext q
    exact decodeOwners_flatMap (aggregateAt P f unknown q) (sendIndicesTo f (unknown r) q)
  have hlk : (compute_index_sharing_result P f unknown r).lookup gi
      = some (aggregateAt P f unknown (f gi) gi) := by
    unfold compute_index_sharing_result
    rw [hL]
    exact lookup_over_arbiters f (unknown r) gi (aggregateAt P f unknown) hgi
      (List.range P) (List.mem_range.mpr hfgi)
  exact ⟨by rw [hlk, hagg], hagg, askers_sorted_head P unknown gi r hr hgi⟩

/-- Witness for the arbitration theorem: two ranks both asking about
index `5` (rank `1` also asks about `9`), routed to arbiter `0`; the
sharing list for `5` at rank `1` is `[0, 1]` with owner `0`. -/
theorem compute_index_sharing_owner_lowest_witness :
    (compute_index_sharing_result 2 fZero uShare 1).lookup 5 = some (askers 2 uShare 5)
    ∧ aggregateAt 2 fZero uShare (fZero 5) 5 = askers 2 uShare 5
    ∧ ∃ o rest, askers 2 uShare 5 = o :: rest ∧ ∀ p ∈ askers 2 uShare 5, o ≤ p := by
  refine compute_index_sharing_owner_lowest 2 fZero uShare 1 5 ?_ ?_ ?_ ?_
  · intro p
    match p with
    | 0 => decide
    | 1 => decide
    | n + 2 => exact List.nodup_nil
  · decide
  · decide
  · decide
